import Mathlib

/-!
Shallow embedding of the `ket-vision` Telegram bot (`src/vision.py`).

The file models the pure helpers (`split_message`, `resize_image`) directly,
and the asynchronous message handlers (`process_image`, `vision_command`,
`autovision_command`, `start_command`, `ping_command`) as state transformers
over an explicit run state (the global `autoVision` flag and the set of files
on disk).  External calls whose outcome the handler merely observes are
supplied as oracle values:

* `DownloadResult` — the outcome of `message.download(...)`: a path, a
  falsy/`None` result, or a raised exception;
* `VisionOutcome` — the outcome of the body of `vision(path)` for an actual
  path: the answer text, a raised `FileNotFoundError`, or any other raised
  exception (covering `Image.open`, `resize_image` and the model call).

Replies (`message.reply_text`) are modelled as recorded effects that always
succeed; the external-interface contract of the spec (§6) gives `reply` no failure
mode.  Logging and message edits are not modelled.  An exception that escapes
the handler is recorded in the `raised` field of the run result.
-/

/-- Outcome of a `message.download(...)` call:
`ok p` — the platform returned path `p` and the file was written there;
`empty` — the call returned a falsy result (`None`/empty) and wrote no file;
`err m` — the call raised an exception with message `m` and wrote no file. -/
inductive DownloadResult where
  | ok (path : String)
  | empty
  | err (msg : String)
deriving DecidableEq

/-- Outcome of the body of `vision(path)` when `path` is an actual string:
the answer text, a raised `FileNotFoundError`, or any other raised
exception.  `vision` itself re-raises whatever its body raised
(src/vision.py lines 84-86). -/
inductive VisionOutcome where
  | ok (text : String)
  | fileNotFound (msg : String)
  | err (msg : String)
deriving DecidableEq

/-- An exception escaping a handler: a propagated Python exception with its
message, the `NameError` from referencing the unbound `image_path` in
the `finally` block of `vision_command`, or the `TypeError` from `os.path.exists(None)`. -/
inductive PyError where
  | exc (msg : String)
  | nameError
  | typeError
deriving DecidableEq

/-- Mutable state visible across one handler invocation: the global
`autoVision` flag (src/vision.py line 41) and the set of files on disk. -/
structure RunState where
  autoVision : Bool
  fs : Finset String
deriving DecidableEq

/-- Observable outcome of one handler invocation: the final state, the texts
passed to `reply_text` in order, whether `vision(...)` was invoked (i.e. some
stage past materialization ran), the paths removed by the cleanup step, and
the exception, if any, that propagated out of the handler. -/
structure RunResult where
  state : RunState
  replies : List String
  visionCalled : Bool
  removed : List String
  raised : Option PyError
deriving DecidableEq

/-- Worker for `pyRange`, structurally recursive on a fuel bound so that it
reduces in the kernel; `stop - start` steps always suffice. -/
def pyRangeAux (step : ℕ) : ℕ → ℕ → ℕ → List ℕ
  | 0, _, _ => []
  | fuel + 1, start, stop =>
      if 0 < step ∧ start < stop then
        start :: pyRangeAux step fuel (start + step) stop
      else
        []

/-- The Python `range(start, stop, step)` for non-negative arguments: the
ascending values `start, start+step, ...` below `stop`.  Empty when
`step = 0` (that case is only reached under the guard in `split_message`,
which models the raised `ValueError` as `none` before calling this). -/
def pyRange (start stop step : ℕ) : List ℕ :=
  pyRangeAux step (stop - start) start stop

/-- The Python slice `text[i : i + m]` on a character list. -/
def pySlice (text : List Char) (i m : ℕ) : List Char :=
  (text.drop i).take m

/-- src/vision.py lines 60-61:
`return [text[i : i + max_length] for i in range(0, len(text), max_length)]`.
`range` with step 0 raises `ValueError`, modelled as `none`.  The default of the source
for `max_length` is 4096; call sites here pass it explicitly. -/
def split_message (text : List Char) (maxLength : ℕ) : Option (List (List Char)) :=
  if maxLength = 0 then
    none
  else
    some ((pyRange 0 text.length maxLength).map (fun i => pySlice text i maxLength))

/-- `split_message` on a `String`, as the handlers use it (with the default
`max_length = 4096`, for which the `none` branch is unreachable). -/
def splitMessageStr (text : String) (maxLength : ℕ) : List String :=
  ((split_message text.data maxLength).getD []).map (fun l => String.mk l)

/-- The Python `str.lower()` restricted to ASCII, which is all the source
compares against (`"on"`/`"off"`). -/
def pyLower (s : String) : String :=
  String.mk (s.data.map Char.toLower)

/-- A crop rectangle in source-image coordinates, as passed to
`Image.resize(size, method, box=crop)`. -/
structure Box where
  left : ℚ
  top : ℚ
  right : ℚ
  bottom : ℚ
deriving DecidableEq

/-- An in-memory raster, abstracted to its dimensions. -/
structure Raster where
  width : ℕ
  height : ℕ
deriving DecidableEq

/-- Result of `Image.resize(size, method, box)`: a raster with exactly the
requested dimensions, resampled from the region `box` of the source.
Pixel contents of the resampling are not modelled. -/
structure CroppedResize where
  width : ℕ
  height : ℕ
  box : Box
deriving DecidableEq

/-- The crop-box arithmetic of the PIL `ImageOps.fit(image, size, method)` with
its default `bleed = 0.0` and `centering = (0.5, 0.5)`, over exact rationals:
compare the input ratio `w / h` with the output ratio `tw / th`, shrink one
dimension so the crop matches the output ratio, and center the crop. -/
def fitCropBox (w h tw th : ℚ) : Box :=
  let rIn := w / h
  let rOut := tw / th
  let c :=
    if rIn = rOut then (w, h)
    else if rIn ≥ rOut then (rOut * h, h)
    else (w, w / rOut)
  let left := (w - c.1) * (1 / 2 : ℚ)
  let top := (h - c.2) * (1 / 2 : ℚ)
  ⟨left, top, left + c.1, top + c.2⟩

/-- The PIL `ImageOps.fit(image, size, method)`: computes the centered,
ratio-matching crop box and returns `image.resize(size, method, box=crop)`,
whose dimensions are exactly `size`. -/
def ImageOps_fit (img : Raster) (size : ℕ × ℕ) : CroppedResize :=
  ⟨size.1, size.2, fitCropBox (img.width : ℚ) (img.height : ℚ) (size.1 : ℚ) (size.2 : ℚ)⟩

/-- src/vision.py lines 55-56: `ImageOps.fit(image, (512, 512), Image.LANCZOS)`.
The resampling method does not affect the geometry modelled here. -/
def resize_image (img : Raster) : CroppedResize :=
  ImageOps_fit img (512, 512)

/-- Reply texts appearing literally in src/vision.py. -/
def ackMsg : String := "Processing image..."

def downloadFailedMsg : String := "Failed to download the image."

def usageMsg : String := "Usage: `/autovision` [on/off]"

def enabledMsg : String :=
  "Autovision enabled for this chat. I will automatically describe images."

def disabledMsg : String :=
  "Autovision disabled for this chat. I will not automatically describe images."

def replyToImageMsg : String := "Reply to an image to describe it."

def description_prompt : String := "Describe this image."

/-- Message of the exception `Image.open(None)` raises inside `vision` when
the download returned `None`; the exact text is library behaviour and no
theorem depends on it. -/
def openNoneExcMsg : String := "NoneType object is not a valid file or path"

/-- src/vision.py lines 65-86, as observed by its callers: for an actual
path the outcome of the body is the oracle `vo`; for `None` (empty download in
`vision_command`) the body always raises at `Image.open(None)`, before any
later stage, and `vision` re-raises. -/
def vision (path : Option String) (vo : VisionOutcome) : VisionOutcome :=
  match path with
  | none => .err openNoneExcMsg
  | some _ => vo

/-- The replies produced by the `try` body shared by both pipeline handlers
(src/vision.py lines 107-113 and 180-186): on success, one reply per chunk of
`split_message(result)`; a `FileNotFoundError` is replied as `Error: ...`;
any other exception as `An unexpected error occurred: ...`. -/
def visionTryReplies (path : Option String) (vo : VisionOutcome) : List String :=
  match vision path vo with
  | .ok text => splitMessageStr text 4096
  | .fileNotFound m => [("Error: " ++ m)]
  | .err m => [("An unexpected error occurred: " ++ m)]

/-- The file set after the platform wrote the downloaded file at `p`. -/
def addFile (p : String) (fs : Finset String) : Finset String :=
  insert p fs

/-- The `finally` block shared by both pipeline handlers (src/vision.py
lines 114-118 and 187-191): `if os.path.exists(p): os.remove(p)`.  Returns
the new file set and whether the removal ran. -/
def cleanupFile (p : String) (fs : Finset String) : Finset String × Bool :=
  if p ∈ fs then (fs.erase p, true) else (fs, false)

/-- src/vision.py line 41: `autoVision = False`, the value of the flag at
process start. -/
def autoVision : Bool := false

/-- src/vision.py lines 90-118, the automatic-mode photo handler:
if `autoVision` is unset, do nothing; otherwise download (line 98 is outside
the `try`, so a raised download exception propagates with no reply), reply
with the failure text on a falsy path, else acknowledge, run `vision` inside
`try/except/finally`, and clean up the file in the `finally`. -/
def process_image (st : RunState) (dl : DownloadResult) (vo : VisionOutcome) : RunResult :=
  if st.autoVision then
    match dl with
    | .err m =>
        -- line 98 raises before the try block: no reply, no cleanup,
        -- the exception leaves the handler
        ⟨st, [], false, [], some (.exc m)⟩
    | .empty =>
        -- lines 101-103: falsy path, reply and return
        ⟨st, [downloadFailedMsg], false, [], none⟩
    | .ok p =>
        let fs1 := addFile p st.fs
        let body := visionTryReplies (some p) vo
        let cl := cleanupFile p fs1
        ⟨⟨st.autoVision, cl.1⟩, ackMsg :: body, true,
          if cl.2 then [p] else [], none⟩
  else
    ⟨st, [], false, [], none⟩

/-- src/vision.py lines 170-193, the `/vision` command handler.  The download
happens inside the `try` (line 179): if it raises, the `except` replies but
the `finally` then reads the unbound `image_path` and a `NameError`
propagates; if it returns `None`, `vision(None)` raises and is replied to,
and then `os.path.exists(None)` in the `finally` raises `TypeError`; on a path,
the run proceeds and the `finally` removes the file. -/
def vision_command (st : RunState) (hasReplyTo replyHasPhoto : Bool)
    (dl : DownloadResult) (vo : VisionOutcome) : RunResult :=
  if hasReplyTo then
    if replyHasPhoto then
      match dl with
      | .err m =>
          ⟨st, [ackMsg, "An unexpected error occurred: " ++ m], false, [],
            some .nameError⟩
      | .empty =>
          ⟨st, ackMsg :: visionTryReplies none vo, true, [], some .typeError⟩
      | .ok p =>
          let fs1 := addFile p st.fs
          let body := visionTryReplies (some p) vo
          let cl := cleanupFile p fs1
          ⟨⟨st.autoVision, cl.1⟩, ackMsg :: body, true,
            if cl.2 then [p] else [], none⟩
    else
      ⟨st, [replyToImageMsg], false, [], none⟩
  else
    ⟨st, [replyToImageMsg], false, [], none⟩

/-- src/vision.py lines 137-154, the `/autovision` command handler.
`command` is the split command message (`command[1]?` is the argument,
present exactly when `len(message.command) > 1`).  The source guards
`command[1].lower() in ["on", "off"]` and then branches `== "on"` /
`== "off"`; the chain below is that exact case split. -/
def autovision_command (st : RunState) (command : List String) : RunResult :=
  match command[1]? with
  | some arg =>
      if pyLower arg == "on" then
        ⟨⟨true, st.fs⟩, [enabledMsg], false, [], none⟩
      else if pyLower arg == "off" then
        ⟨⟨false, st.fs⟩, [disabledMsg], false, [], none⟩
      else
        ⟨st, [usageMsg], false, [], none⟩
  | none =>
      ⟨st, [usageMsg], false, [], none⟩

/-- src/vision.py lines 122-134: the `/start`/`/help` text, a function of the
mentioning string and the current flag. -/
def startMessage (user : String) (flag : Bool) : String :=
  "`Ket.vision`\nVersion:`0.3`\n\nHi " ++ user ++
  ". I am a Telegram bot that uses the multimodels to describe images.\n\n" ++
  "**Avaible commands:**\n`/vision` - Process an image and describe it.\n" ++
  "`/autovision` - Toggle AutoVision mode.\n\n**Status:**\nAutoVision mode: `" ++
  (if flag then "enabled" else "disabled") ++
  "`\n\n**Model:** `vikhyatk/moondream2`\n"

/-- src/vision.py lines 122-134: replies the start text; no state change. -/
def start_command (st : RunState) (user : String) : RunResult :=
  ⟨st, [startMessage user st.autoVision], false, [], none⟩

/-- src/vision.py lines 157-167: replies the latency placeholder and later
edits it (the edit and the measured real time are outside the model); no
state change. -/
def ping_command (st : RunState) : RunResult :=
  ⟨st, ["Calculating latency..."], false, [], none⟩

/-- An inbound chat event, carrying the oracle outcomes of the external calls
its handler will make. -/
inductive Event where
  | photo (dl : DownloadResult) (vo : VisionOutcome)
  | autovisionCmd (command : List String)
  | visionCmd (hasReplyTo replyHasPhoto : Bool) (dl : DownloadResult) (vo : VisionOutcome)
  | startCmd (user : String)
  | pingCmd
deriving DecidableEq

/-- Dispatch of an inbound event to its handler. -/
def stepEvent (st : RunState) (e : Event) : RunResult :=
  match e with
  | .photo dl vo => process_image st dl vo
  | .autovisionCmd command => autovision_command st command
  | .visionCmd hasReplyTo replyHasPhoto dl vo =>
      vision_command st hasReplyTo replyHasPhoto dl vo
  | .startCmd user => start_command st user
  | .pingCmd => ping_command st

/-- The state after processing a list of inbound events in order. -/
def runEvents (st : RunState) (evs : List Event) : RunState :=
  evs.foldl (fun s e => (stepEvent s e).state) st

/-- Whether an event is an `/autovision` command whose argument lowercases to
`"on"` — the only event that can set the flag. -/
def togglesOn : Event → Bool
  | .autovisionCmd command =>
      match command[1]? with
      | some a => pyLower a == "on"
      | none => false
  | _ => false

/-- The single user-visible error reply the shared `try` body produces for a
failed `vision` outcome. -/
def errorReplyOf : VisionOutcome → Option String
  | .ok _ => none
  | .fileNotFound m => some ("Error: " ++ m)
  | .err m => some ("An unexpected error occurred: " ++ m)

/-- The recursive characterization of fixed-width chunking that
the comprehension in `split_message` computes. -/
def chunkRec (m : ℕ) (text : List Char) : List (List Char) :=
  if h : text = [] ∨ m = 0 then
    []
  else
    text.take m :: chunkRec m (text.drop m)
termination_by text.length
decreasing_by
  simp_wf
  push_neg at h
  have := List.length_pos.mpr h.1
  omega

theorem pyRangeAux_congr (step : ℕ) :
    ∀ (f1 f2 start stop : ℕ), stop - start ≤ f1 → stop - start ≤ f2 →
      pyRangeAux step f1 start stop = pyRangeAux step f2 start stop := by
  intro f1
  induction f1 with
  | zero =>
      intro f2 start stop h1 h2
      cases f2 with
      | zero => rfl
      | succ f2 =>
          simp only [pyRangeAux]
          rw [if_neg]
          omega
  | succ f1 ih =>
      intro f2 start stop h1 h2
      cases f2 with
      | zero =>
          simp only [pyRangeAux]
          rw [if_neg]
          omega
      | succ f2 =>
          simp only [pyRangeAux]
          by_cases h : 0 < step ∧ start < stop
          · rw [if_pos h, if_pos h, ih f2 (start + step) stop (by omega) (by omega)]
          · rw [if_neg h, if_neg h]

theorem pyRange_unfold (start stop step : ℕ) :
    pyRange start stop step =
      if 0 < step ∧ start < stop then
        start :: pyRange (start + step) stop step
      else
        [] := by
  by_cases h : 0 < step ∧ start < stop
  · rw [if_pos h]
    show pyRangeAux step (stop - start) start stop = _
    have hss : stop - start = (stop - start - 1) + 1 := by omega
    rw [hss]
    simp only [pyRangeAux]
    rw [if_pos h]
    show _ = start :: pyRangeAux step (stop - (start + step)) (start + step) stop
    rw [pyRangeAux_congr step (stop - start - 1) (stop - (start + step)) (start + step) stop
      (by omega) (by omega)]
  · rw [if_neg h]
    show pyRangeAux step (stop - start) start stop = _
    cases hss : stop - start with
    | zero => rfl
    | succ n =>
        simp only [pyRangeAux]
        rw [if_neg h]

theorem pyRangeAux_map_add (step k : ℕ) :
    ∀ (fuel start stop : ℕ),
      pyRangeAux step fuel (start + k) (stop + k) =
        (pyRangeAux step fuel start stop).map (fun x => x + k) := by
  intro fuel
  induction fuel with
  | zero => intro start stop; rfl
  | succ fuel ih =>
      intro start stop
      simp only [pyRangeAux]
      by_cases h : 0 < step ∧ start < stop
      · rw [if_pos h, if_pos (by omega : 0 < step ∧ start + k < stop + k)]
        simp only [List.map_cons]
        rw [show start + k + step = start + step + k by omega, ih (start + step) stop]
      · rw [if_neg h, if_neg (by omega : ¬(0 < step ∧ start + k < stop + k))]
        rfl

theorem pyRange_map_add (start stop step k : ℕ) :
    pyRange (start + k) (stop + k) step = (pyRange start stop step).map (fun x => x + k) := by
  show pyRangeAux step (stop + k - (start + k)) (start + k) (stop + k) = _
  rw [show stop + k - (start + k) = stop - start by omega, pyRangeAux_map_add]
  rfl

theorem chunkRec_nil_iff (m : ℕ) (hm : m ≠ 0) (text : List Char) :
    chunkRec m text = [] ↔ text = [] := by
  rw [chunkRec]
  by_cases h : text = [] ∨ m = 0
  · rw [dif_pos h]
    simp
    tauto
  · rw [dif_neg h]
    push_neg at h
    simp [h.1]

theorem split_message_eq_chunkRec (text : List Char) (m : ℕ) (hm : m ≠ 0) :
    split_message text m = some (chunkRec m text) := by
  rw [split_message, if_neg hm]
  congr 1
  generalize hn : text.length = n
  induction n using Nat.strong_induction_on generalizing text with
  | _ n ih =>
      subst hn
      rw [pyRange_unfold]
      by_cases h0 : text.length = 0
      · rw [if_neg (by omega), chunkRec, dif_pos (Or.inl (List.length_eq_zero.mp h0))]
        rfl
      · rw [if_pos (by omega : 0 < m ∧ 0 < text.length), chunkRec,
          dif_neg (by push_neg; exact ⟨fun hc => h0 (by simp [hc]), hm⟩)]
        simp only [List.map_cons, Nat.zero_add]
        have hhead : pySlice text 0 m = text.take m := by simp [pySlice]
        rw [hhead]
        congr 1
        by_cases hml : text.length ≤ m
        · rw [pyRange_unfold, if_neg (by omega)]
          have hd : text.drop m = [] := List.drop_eq_nil_of_le hml
          rw [hd, chunkRec, dif_pos (Or.inl rfl)]
          rfl
        · have hshift : pyRange m text.length m =
              (pyRange 0 (text.length - m) m).map (fun x => x + m) := by
            have hp := pyRange_map_add 0 (text.length - m) m m
            rw [Nat.zero_add, show text.length - m + m = text.length by omega] at hp
            exact hp
          rw [hshift, List.map_map]
          have hfun : ((fun i => pySlice text i m) ∘ fun x => x + m) =
              fun i => pySlice (text.drop m) i m := by
            funext i
            simp only [Function.comp, pySlice]
            rw [List.drop_drop]
            congr 2
            omega
          rw [hfun]
          have hlen : (text.drop m).length = text.length - m := by simp
          have := ih (text.drop m).length (by omega) (text.drop m) rfl
          rw [hlen] at this
          exact this

theorem chunkRec_flatten (m : ℕ) (hm : m ≠ 0) (text : List Char) :
    (chunkRec m text).flatten = text := by
  generalize hn : text.length = n
  induction n using Nat.strong_induction_on generalizing text with
  | _ n ih =>
      subst hn
      rw [chunkRec]
      by_cases h : text = [] ∨ m = 0
      · rw [dif_pos h]
        rcases h with h | h
        · simp [h]
        · exact absurd h hm
      · rw [dif_neg h]
        push_neg at h
        have hpos := List.length_pos.mpr h.1
        rw [List.flatten_cons, ih (text.drop m).length (by simp; omega) (text.drop m) rfl,
          List.take_append_drop]

theorem ceil_div_step (L m : ℕ) (hm : 0 < m) (hL : 0 < L) :
    (L + m - 1) / m = ((L - m) + m - 1) / m + 1 := by
  rcases le_or_lt L m with h | h
  · have h1 : L - m = 0 := by omega
    rw [h1]
    have h2 : L + m - 1 = (L - 1) + m := by omega
    have h3 : 0 + m - 1 = m - 1 := by omega
    rw [h2, h3, Nat.add_div_right _ hm, Nat.div_eq_of_lt (by omega),
      Nat.div_eq_of_lt (by omega)]
  · have h2 : L + m - 1 = ((L - m) + m - 1) + m := by omega
    rw [h2, Nat.add_div_right _ hm]

theorem chunkRec_length (m : ℕ) (hm : m ≠ 0) (text : List Char) :
    (chunkRec m text).length = (text.length + m - 1) / m := by
  generalize hn : text.length = n
  induction n using Nat.strong_induction_on generalizing text with
  | _ n ih =>
      subst hn
      rw [chunkRec]
      by_cases h : text = [] ∨ m = 0
      · rw [dif_pos h]
        rcases h with h | h
        · simp [h, Nat.div_eq_of_lt (by omega : m - 1 < m)]
        · exact absurd h hm
      · rw [dif_neg h]
        push_neg at h
        have hpos := List.length_pos.mpr h.1
        simp only [List.length_cons]
        rw [ih (text.drop m).length (by simp; omega) (text.drop m) rfl]
        rw [ceil_div_step text.length m (by omega) hpos]
        simp

theorem chunkRec_getD (m : ℕ) (hm : m ≠ 0) (text : List Char) :
    ∀ i, i + 1 < (chunkRec m text).length → ((chunkRec m text).getD i []).length = m := by
  generalize hn : text.length = n
  induction n using Nat.strong_induction_on generalizing text with
  | _ n ih =>
      subst hn
      intro i hi
      rw [chunkRec] at hi ⊢
      by_cases h : text = [] ∨ m = 0
      · rw [dif_pos h] at hi
        simp at hi
      · rw [dif_neg h] at hi ⊢
        push_neg at h
        have hpos := List.length_pos.mpr h.1
        cases i with
        | zero =>
            simp only [List.getD_cons_zero]
            simp only [List.length_cons] at hi
            have hrest : chunkRec m (text.drop m) ≠ [] := by
              intro hc
              rw [hc] at hi
              simp at hi
            have hdrop : text.drop m ≠ [] :=
              fun hc => hrest ((chunkRec_nil_iff m hm (text.drop m)).mpr hc)
            have hd : m < text.length := by
              by_contra hc
              exact hdrop (List.drop_eq_nil_of_le (by omega))
            simp only [List.length_take]
            omega
        | succ j =>
            simp only [List.getD_cons_succ]
            simp only [List.length_cons] at hi
            exact ih (text.drop m).length (by simp; omega) (text.drop m) rfl j (by omega)

theorem chunkRec_le (m : ℕ) (text : List Char) :
    ∀ c ∈ chunkRec m text, c.length ≤ m := by
  generalize hn : text.length = n
  induction n using Nat.strong_induction_on generalizing text with
  | _ n ih =>
      subst hn
      intro c hc
      rw [chunkRec] at hc
      by_cases h : text = [] ∨ m = 0
      · rw [dif_pos h] at hc
        simp at hc
      · rw [dif_neg h] at hc
        push_neg at h
        have hpos := List.length_pos.mpr h.1
        rcases List.mem_cons.mp hc with h1 | h1
        · subst h1
          simp only [List.length_take]
          omega
        · exact ih (text.drop m).length (by simp; omega) (text.drop m) rfl c h1

theorem chunkRec_ne_nil (m : ℕ) (hm : m ≠ 0) (text : List Char) :
    ∀ c ∈ chunkRec m text, c ≠ [] := by
  generalize hn : text.length = n
  induction n using Nat.strong_induction_on generalizing text with
  | _ n ih =>
      subst hn
      intro c hc
      rw [chunkRec] at hc
      by_cases h : text = [] ∨ m = 0
      · rw [dif_pos h] at hc
        simp at hc
      · rw [dif_neg h] at hc
        push_neg at h
        have hpos := List.length_pos.mpr h.1
        rcases List.mem_cons.mp hc with h1 | h1
        · subst h1
          intro hc
          rcases List.take_eq_nil_iff.mp hc with h1 | h1
          · exact hm h1
          · exact h.1 h1
        · exact ih (text.drop m).length (by simp; omega) (text.drop m) rfl c h1

theorem processImage_gate_off (st : RunState) (dl : DownloadResult) (vo : VisionOutcome)
    (h : st.autoVision = false) :
    process_image st dl vo = ⟨st, [], false, [], none⟩ := by
  simp [process_image, h]

theorem processImage_flag (st : RunState) (dl : DownloadResult) (vo : VisionOutcome) :
    (process_image st dl vo).state.autoVision = st.autoVision := by
  by_cases h : st.autoVision <;> cases dl <;> simp [process_image, h]

theorem visionCommand_flag (st : RunState) (hasReplyTo replyHasPhoto : Bool)
    (dl : DownloadResult) (vo : VisionOutcome) :
    (vision_command st hasReplyTo replyHasPhoto dl vo).state.autoVision = st.autoVision := by
  cases hasReplyTo <;> cases replyHasPhoto <;> cases dl <;> simp [vision_command]

theorem stepEvent_flag_false (st : RunState) (e : Event)
    (h : st.autoVision = false) (ht : togglesOn e = false) :
    (stepEvent st e).state.autoVision = false := by
  cases e with
  | photo dl vo => rw [stepEvent, processImage_flag]; exact h
  | autovisionCmd command =>
      rw [stepEvent]
      rw [togglesOn] at ht
      cases hg : command[1]? with
      | none => simp [autovision_command, hg, h]
      | some a =>
          rw [hg] at ht
          have hne : pyLower a ≠ "on" := by simpa using ht
          by_cases hoff : pyLower a = "off"
          · simp [autovision_command, hg, hne, hoff]
          · simp [autovision_command, hg, hne, hoff, h]
  | visionCmd hasReplyTo replyHasPhoto dl vo =>
      rw [stepEvent, visionCommand_flag]; exact h
  | startCmd user => exact h
  | pingCmd => exact h

theorem runEvents_flag_false :
    ∀ (evs : List Event) (st : RunState), st.autoVision = false →
      (∀ e ∈ evs, togglesOn e = false) → (runEvents st evs).autoVision = false := by
  intro evs
  induction evs with
  | nil => intro st h _; exact h
  | cons e evs ih =>
      intro st h hall
      rw [runEvents, List.foldl_cons]
      exact ih (stepEvent st e).state
        (stepEvent_flag_false st e h (hall e (List.mem_cons_self e evs)))
        (fun x hx => hall x (List.mem_cons_of_mem e hx))

/-- C1: for every pipeline run — automatic-mode (`process_image` with the gate
set) or the `/vision` command — in which the download produced a local file
path `p`, after the run the file no longer exists on disk, the cleanup step
ran and removed exactly `p`, whatever the outcome `vo` of
preprocessing/inference/replying; and the cleanup step removes a path iff it
exists on disk when it runs. -/
theorem claim1_cleanup_always (st : RunState) (p : String) (vo : VisionOutcome)
    (hAuto : st.autoVision = true) :
    (p ∉ (process_image st (.ok p) vo).state.fs ∧
      (process_image st (.ok p) vo).removed = [p]) ∧
    (p ∉ (vision_command st true true (.ok p) vo).state.fs ∧
      (vision_command st true true (.ok p) vo).removed = [p]) ∧
    (∀ fs : Finset String, (cleanupFile p fs).2 = true ↔ p ∈ fs) := by
  refine ⟨?_, ?_, ?_⟩
  · simp [process_image, hAuto, addFile, cleanupFile, Finset.not_mem_erase]
  · simp [vision_command, addFile, cleanupFile, Finset.not_mem_erase]
  · intro fs
    by_cases h : p ∈ fs <;> simp [cleanupFile, h]

theorem claim1_cleanup_always_witness :
    ((⟨true, ∅⟩ : RunState).autoVision = true) ∧
    ("downloads/image.jpg" ∉
        (process_image ⟨true, ∅⟩ (.ok "downloads/image.jpg") (.ok "desc")).state.fs ∧
      (process_image ⟨true, ∅⟩ (.ok "downloads/image.jpg") (.ok "desc")).removed =
        ["downloads/image.jpg"]) ∧
    ("downloads/image.jpg" ∉
        (vision_command ⟨true, ∅⟩ true true (.ok "downloads/image.jpg") (.ok "desc")).state.fs ∧
      (vision_command ⟨true, ∅⟩ true true (.ok "downloads/image.jpg") (.ok "desc")).removed =
        ["downloads/image.jpg"]) ∧
    (∀ fs : Finset String, (cleanupFile "downloads/image.jpg" fs).2 = true ↔
      "downloads/image.jpg" ∈ fs) :=
  ⟨rfl, claim1_cleanup_always ⟨true, ∅⟩ "downloads/image.jpg" (.ok "desc") rfl⟩

/-- C2, as stated, is false: in `process_image` the download call sits outside
the `try` (src/vision.py line 98), so a download exception propagates out of
the handler without any user-visible reply. -/
theorem claim2_counterexample :
    (process_image ⟨true, ∅⟩ (.err "connection reset") (.ok "text")).raised =
      some (.exc "connection reset") ∧
    (process_image ⟨true, ∅⟩ (.err "connection reset") (.ok "text")).replies = [] :=
  ⟨rfl, rfl⟩

/-- C2 amended: in every run whose download returned a path, an exception
raised during preprocessing or inference is caught inside the handler,
converted into exactly one user-visible error reply (after the
acknowledgment), and does not propagate out of the handler. -/
theorem claim2_errors_one_reply (st : RunState) (p e : String) (vo : VisionOutcome)
    (hAuto : st.autoVision = true) (he : errorReplyOf vo = some e) :
    ((process_image st (.ok p) vo).replies = [ackMsg, e] ∧
      (process_image st (.ok p) vo).raised = none) ∧
    ((vision_command st true true (.ok p) vo).replies = [ackMsg, e] ∧
      (vision_command st true true (.ok p) vo).raised = none) := by
  cases vo with
  | ok t => simp [errorReplyOf] at he
  | fileNotFound m =>
      rw [errorReplyOf] at he
      cases he
      constructor <;>
        simp [process_image, vision_command, hAuto, visionTryReplies, vision]
  | err m =>
      rw [errorReplyOf] at he
      cases he
      constructor <;>
        simp [process_image, vision_command, hAuto, visionTryReplies, vision]

theorem claim2_errors_one_reply_witness :
    ((⟨true, ∅⟩ : RunState).autoVision = true) ∧
    errorReplyOf (.err "model failure") = some ("An unexpected error occurred: model failure") ∧
    (((process_image ⟨true, ∅⟩ (.ok "a.jpg") (.err "model failure")).replies =
        [ackMsg, "An unexpected error occurred: model failure"] ∧
      (process_image ⟨true, ∅⟩ (.ok "a.jpg") (.err "model failure")).raised = none) ∧
    ((vision_command ⟨true, ∅⟩ true true (.ok "a.jpg") (.err "model failure")).replies =
        [ackMsg, "An unexpected error occurred: model failure"] ∧
      (vision_command ⟨true, ∅⟩ true true (.ok "a.jpg") (.err "model failure")).raised = none)) :=
  ⟨rfl, rfl,
    claim2_errors_one_reply ⟨true, ∅⟩ "a.jpg" ("An unexpected error occurred: model failure")
      (.err "model failure") rfl rfl⟩

/-- C6: an inbound photo while the gate is `false` does nothing — no download,
no reply, no state change, no cleanup, nothing raised. -/
theorem claim6_gate_off_noop (st : RunState) (dl : DownloadResult) (vo : VisionOutcome)
    (h : st.autoVision = false) :
    process_image st dl vo = ⟨st, [], false, [], none⟩ :=
  processImage_gate_off st dl vo h

theorem claim6_gate_off_noop_witness :
    ((⟨false, ∅⟩ : RunState).autoVision = false) ∧
    process_image ⟨false, ∅⟩ (.ok "a.jpg") (.ok "desc") = ⟨⟨false, ∅⟩, [], false, [], none⟩ :=
  ⟨rfl, claim6_gate_off_noop ⟨false, ∅⟩ (.ok "a.jpg") (.ok "desc") rfl⟩

/-- C7, as stated, is false: the `/vision` handler has no empty-path check
(src/vision.py lines 179-186), so a `None` download result flows into
`vision(None)` — a further stage runs — and the reply is the generic
unexpected-error message, not the download-failure message. -/
theorem claim7_counterexample :
    (vision_command ⟨false, ∅⟩ true true .empty (.ok "a description")).visionCalled = true ∧
    downloadFailedMsg ∉ (vision_command ⟨false, ∅⟩ true true .empty (.ok "a description")).replies := by
  constructor
  · rfl
  · decide

/-- C7 amended: only the automatic-mode handler checks for an empty download
result, replying with the download-failure message, running no further stage
and performing no cleanup; the `/vision` handler performs no such check — it
calls `vision` on the empty path (so preprocessing is attempted), removes
nothing, and leaves the state unchanged. -/
theorem claim7_empty_download (st : RunState) (vo : VisionOutcome)
    (hAuto : st.autoVision = true) :
    process_image st .empty vo = ⟨st, [downloadFailedMsg], false, [], none⟩ ∧
    (vision_command st true true .empty vo).visionCalled = true ∧
    (vision_command st true true .empty vo).removed = [] ∧
    (vision_command st true true .empty vo).state = st := by
  refine ⟨by simp [process_image, hAuto], rfl, rfl, rfl⟩

theorem claim7_empty_download_witness :
    ((⟨true, ∅⟩ : RunState).autoVision = true) ∧
    process_image ⟨true, ∅⟩ .empty (.ok "t") = ⟨⟨true, ∅⟩, [downloadFailedMsg], false, [], none⟩ ∧
    (vision_command ⟨true, ∅⟩ true true .empty (.ok "t")).visionCalled = true ∧
    (vision_command ⟨true, ∅⟩ true true .empty (.ok "t")).removed = [] ∧
    (vision_command ⟨true, ∅⟩ true true .empty (.ok "t")).state = ⟨true, ∅⟩ :=
  ⟨rfl, claim7_empty_download ⟨true, ∅⟩ (.ok "t") rfl⟩

/-- C8: the flag starts `false` (src/vision.py line 41), and as long as no
`/autovision` command with an argument lowercasing to `"on"` has been
processed, the flag stays `false` and an inbound photo produces no download,
no reply and no state change. -/
theorem claim8_initial_off :
    autoVision = false ∧
    (∀ (fs : Finset String) (evs : List Event),
       (∀ e ∈ evs, togglesOn e = false) →
       (runEvents ⟨autoVision, fs⟩ evs).autoVision = false ∧
       (∀ (dl : DownloadResult) (vo : VisionOutcome),
          process_image (runEvents ⟨autoVision, fs⟩ evs) dl vo =
            ⟨runEvents ⟨autoVision, fs⟩ evs, [], false, [], none⟩)) := by
  refine ⟨rfl, ?_⟩
  intro fs evs hall
  have hflag : (runEvents ⟨autoVision, fs⟩ evs).autoVision = false :=
    runEvents_flag_false evs ⟨autoVision, fs⟩ rfl hall
  exact ⟨hflag, fun dl vo => processImage_gate_off _ dl vo hflag⟩

theorem claim8_initial_off_witness :
    (∀ e ∈ ([Event.pingCmd, .autovisionCmd ["autovision", "off"],
        .startCmd "u", .visionCmd true true (.ok "a.jpg") (.ok "desc"),
        .photo (.ok "b.jpg") (.ok "desc")] : List Event), togglesOn e = false) ∧
    ((runEvents ⟨autoVision, ∅⟩ [Event.pingCmd, .autovisionCmd ["autovision", "off"],
        .startCmd "u", .visionCmd true true (.ok "a.jpg") (.ok "desc"),
        .photo (.ok "b.jpg") (.ok "desc")]).autoVision = false ∧
      (∀ (dl : DownloadResult) (vo : VisionOutcome),
        process_image (runEvents ⟨autoVision, ∅⟩ [Event.pingCmd,
            .autovisionCmd ["autovision", "off"], .startCmd "u",
            .visionCmd true true (.ok "a.jpg") (.ok "desc"),
            .photo (.ok "b.jpg") (.ok "desc")]) dl vo =
          ⟨runEvents ⟨autoVision, ∅⟩ [Event.pingCmd, .autovisionCmd ["autovision", "off"],
            .startCmd "u", .visionCmd true true (.ok "a.jpg") (.ok "desc"),
            .photo (.ok "b.jpg") (.ok "desc")], [], false, [], none⟩)) :=
  ⟨by decide, claim8_initial_off.2 ∅ _ (by decide)⟩

/-- C9: the toggle argument is matched case-insensitively — every argument
lowercasing to `"on"` sets the flag with the enabled confirmation, every
argument lowercasing to `"off"` clears it with the disabled confirmation. -/
theorem claim9_case_insensitive (st : RunState) (a : String) (rest : List String) :
    (pyLower a = "on" →
       autovision_command st ("autovision" :: a :: rest) =
         ⟨⟨true, st.fs⟩, [enabledMsg], false, [], none⟩) ∧
    (pyLower a = "off" →
       autovision_command st ("autovision" :: a :: rest) =
         ⟨⟨false, st.fs⟩, [disabledMsg], false, [], none⟩) := by
  constructor <;> intro h <;> simp [autovision_command, h]

theorem claim9_case_insensitive_witness :
    (pyLower "On" = "on" ∧
      autovision_command ⟨false, ∅⟩ ["autovision", "On"] =
        ⟨⟨true, ∅⟩, [enabledMsg], false, [], none⟩) ∧
    (pyLower "OFF" = "off" ∧
      autovision_command ⟨true, ∅⟩ ["autovision", "OFF"] =
        ⟨⟨false, ∅⟩, [disabledMsg], false, [], none⟩) :=
  ⟨⟨by decide, (claim9_case_insensitive ⟨false, ∅⟩ "On" []).1 (by decide)⟩,
   ⟨by decide, (claim9_case_insensitive ⟨true, ∅⟩ "OFF" []).2 (by decide)⟩⟩

/-- C5, as stated, is false: the argument `"On"` is neither `"on"` nor
`"off"`, yet the handler sets the flag and replies with the enabled
confirmation rather than leaving the flag unchanged with a usage reply,
because the source lowercases the argument first. -/
theorem claim5_counterexample :
    (autovision_command ⟨false, ∅⟩ ["autovision", "On"]).state.autoVision = true ∧
    (autovision_command ⟨false, ∅⟩ ["autovision", "On"]).replies = [enabledMsg] := by
  constructor <;> decide

/-- C5 amended: the flag is mutated only by the `/autovision` handler; that
handler matches its argument after lowercasing — an argument lowercasing to
`"on"` sets the flag, one lowercasing to `"off"` clears it, and any other
argument, including a missing one, leaves the state unchanged with a usage
reply; toggling on then off leaves the flag `false`. -/
theorem claim5_toggle_semantics :
    (∀ (st : RunState) (command : List String) (a : String), command[1]? = some a →
       (pyLower a = "on" →
          autovision_command st command = ⟨⟨true, st.fs⟩, [enabledMsg], false, [], none⟩) ∧
       (pyLower a = "off" →
          autovision_command st command = ⟨⟨false, st.fs⟩, [disabledMsg], false, [], none⟩) ∧
       (pyLower a ≠ "on" → pyLower a ≠ "off" →
          autovision_command st command = ⟨st, [usageMsg], false, [], none⟩)) ∧
    (∀ (st : RunState) (command : List String), command[1]? = none →
       autovision_command st command = ⟨st, [usageMsg], false, [], none⟩) ∧
    (∀ st : RunState,
       (autovision_command (autovision_command st ["autovision", "on"]).state
           ["autovision", "off"]).state.autoVision = false) ∧
    (∀ (st : RunState) (e : Event), (∀ command, e ≠ .autovisionCmd command) →
       (stepEvent st e).state.autoVision = st.autoVision) := by
  refine ⟨?_, ?_, ?_, ?_⟩
  · intro st command a hget
    refine ⟨fun h => by simp [autovision_command, hget, h],
      fun h => by simp [autovision_command, hget, h],
      fun h1 h2 => by simp [autovision_command, hget, h1, h2]⟩
  · intro st command hget
    simp [autovision_command, hget]
  · intro st
    have h1 : pyLower "on" = "on" := by decide
    have h2 : pyLower "off" ≠ "on" := by decide
    have h3 : pyLower "off" = "off" := by decide
    simp [autovision_command, h1, h2, h3]
  · intro st e he
    cases e with
    | photo dl vo => exact processImage_flag st dl vo
    | autovisionCmd command => exact absurd rfl (he command)
    | visionCmd hasReplyTo replyHasPhoto dl vo =>
        exact visionCommand_flag st hasReplyTo replyHasPhoto dl vo
    | startCmd user => rfl
    | pingCmd => rfl

theorem claim5_toggle_semantics_witness :
    (([("autovision" : String), "xyz"][1]? = some "xyz") ∧
      autovision_command ⟨true, ∅⟩ ["autovision", "xyz"] =
        ⟨⟨true, ∅⟩, [usageMsg], false, [], none⟩) ∧
    (([("autovision" : String)][1]? = (none : Option String)) ∧
      autovision_command ⟨true, ∅⟩ ["autovision"] =
        ⟨⟨true, ∅⟩, [usageMsg], false, [], none⟩) ∧
    (autovision_command (autovision_command ⟨false, ∅⟩ ["autovision", "on"]).state
        ["autovision", "off"]).state.autoVision = false ∧
    (stepEvent ⟨true, ∅⟩ .pingCmd).state.autoVision = true :=
  ⟨⟨rfl, (claim5_toggle_semantics.1 ⟨true, ∅⟩ ["autovision", "xyz"] "xyz" rfl).2.2
      (by decide) (by decide)⟩,
   ⟨rfl, claim5_toggle_semantics.2.1 ⟨true, ∅⟩ ["autovision"] rfl⟩,
   claim5_toggle_semantics.2.2.1 ⟨false, ∅⟩,
   claim5_toggle_semantics.2.2.2 ⟨true, ∅⟩ .pingCmd (fun c hc => Event.noConfusion hc)⟩

/-- C3: for every text and every `max_length ≥ 1`, `split_message` succeeds;
concatenating its chunks in order reproduces the text exactly; the chunk
count is `⌈len/M⌉` (0 for empty text); every chunk except possibly the last
has exactly `M` characters; and every chunk has at most `M`. -/
theorem claim3_split_roundtrip (text : List Char) (m : ℕ) (hm : 1 ≤ m) :
    ∃ cs, split_message text m = some cs ∧
      cs.flatten = text ∧
      cs.length = (text.length + m - 1) / m ∧
      (∀ i, i + 1 < cs.length → (cs.getD i []).length = m) ∧
      (∀ c ∈ cs, c.length ≤ m) :=
  ⟨chunkRec m text, split_message_eq_chunkRec text m (by omega),
    chunkRec_flatten m (by omega) text, chunkRec_length m (by omega) text,
    chunkRec_getD m (by omega) text, chunkRec_le m text⟩

theorem claim3_split_roundtrip_witness :
    1 ≤ 2 ∧
    ∃ cs, split_message ['h', 'e', 'l', 'l', 'o'] 2 = some cs ∧
      cs.flatten = ['h', 'e', 'l', 'l', 'o'] ∧
      cs.length = (['h', 'e', 'l', 'l', 'o'].length + 2 - 1) / 2 ∧
      (∀ i, i + 1 < cs.length → (cs.getD i []).length = 2) ∧
      (∀ c ∈ cs, c.length ≤ 2) :=
  ⟨by decide, claim3_split_roundtrip ['h', 'e', 'l', 'l', 'o'] 2 (by decide)⟩

/-- C10: `split_message` is total for `max_length ≥ 1`, where every returned
chunk is non-empty; for `max_length = 0` the underlying `range(0, len, 0)`
raises, so the call has no value. -/
theorem claim10_split_totality :
    (∀ (text : List Char) (m : ℕ), 1 ≤ m →
       ∃ cs, split_message text m = some cs ∧ ∀ c ∈ cs, c ≠ []) ∧
    (∀ text : List Char, split_message text 0 = none) := by
  constructor
  · intro text m hm
    exact ⟨chunkRec m text, split_message_eq_chunkRec text m (by omega),
      chunkRec_ne_nil m (by omega) text⟩
  · intro text
    rfl

theorem claim10_split_totality_witness :
    (1 ≤ 3 ∧
      ∃ cs, split_message ['a', 'b'] 3 = some cs ∧ ∀ c ∈ cs, c ≠ []) ∧
    split_message ['a', 'b'] 0 = none :=
  ⟨⟨by decide, claim10_split_totality.1 ['a', 'b'] 3 (by decide)⟩,
    claim10_split_totality.2 ['a', 'b']⟩

/-- The crop box `ImageOps.fit` computes for a square 512×512 target: for a
wide (or square) image a full-height centered square of side `h`, for a tall
image a full-width centered square of side `w`. -/
theorem fitCropBox_512 (w h : ℚ) (hh : 0 < h) :
    fitCropBox w h 512 512 =
      if h ≤ w then ⟨(w - h) * (1 / 2), 0, (w - h) * (1 / 2) + h, h⟩
      else ⟨0, (h - w) * (1 / 2), w, (h - w) * (1 / 2) + w⟩ := by
  have hro : (512 : ℚ) / 512 = 1 := by norm_num
  simp only [fitCropBox, hro]
  by_cases h1 : w / h = 1
  · have hWH : w = h := by
      rw [div_eq_one_iff_eq (ne_of_gt hh)] at h1
      exact h1
    subst hWH
    rw [if_pos h1, if_pos (le_refl w)]
    congr 1 <;> first | rfl | ring
  · rw [if_neg h1]
    by_cases h2 : w / h ≥ 1
    · have hle : h ≤ w := by
        rw [ge_iff_le, le_div_iff₀ hh] at h2
        linarith
      rw [if_pos h2, if_pos hle]
      congr 1 <;> first | rfl | ring
    · have hlt : w < h := by
        push_neg at h2
        rw [div_lt_one hh] at h2
        exact h2
      rw [if_neg h2, if_neg (not_le.mpr hlt)]
      congr 1 <;> first | rfl | ring

/-- C4: for every decodable image of positive dimensions, the preprocessor
yields a raster of exactly 512×512 pixels; the crop box it resamples from is
square (matching the 512:512 output ratio), lies entirely inside the source
image (remainder discarded, no padding), and is centered.  Determinism holds
by construction: the transform is a pure function of the input. -/
theorem claim4_resize_512 (img : Raster) (hw : 0 < img.width) (hh : 0 < img.height) :
    (resize_image img).width = 512 ∧
    (resize_image img).height = 512 ∧
    (resize_image img).box.right - (resize_image img).box.left =
      (resize_image img).box.bottom - (resize_image img).box.top ∧
    0 ≤ (resize_image img).box.left ∧
    0 ≤ (resize_image img).box.top ∧
    (resize_image img).box.right ≤ (img.width : ℚ) ∧
    (resize_image img).box.bottom ≤ (img.height : ℚ) ∧
    (img.width : ℚ) - (resize_image img).box.right = (resize_image img).box.left ∧
    (img.height : ℚ) - (resize_image img).box.bottom = (resize_image img).box.top := by
  rcases img with ⟨W, H⟩
  have hW : (0 : ℚ) < (W : ℚ) := by exact_mod_cast hw
  have hH : (0 : ℚ) < (H : ℚ) := by exact_mod_cast hh
  have hbox : (resize_image ⟨W, H⟩).box = fitCropBox (W : ℚ) (H : ℚ) 512 512 := by
    simp only [resize_image, ImageOps_fit]
    norm_num
  by_cases hle : (H : ℚ) ≤ (W : ℚ)
  · rw [hbox, fitCropBox_512 (W : ℚ) (H : ℚ) hH, if_pos hle]
    refine ⟨rfl, rfl, ?_, ?_, ?_, ?_, ?_, ?_, ?_⟩
    · show ((W : ℚ) - H) * (1 / 2) + H - ((W : ℚ) - H) * (1 / 2) = (H : ℚ) - 0
      linarith
    · show (0 : ℚ) ≤ ((W : ℚ) - H) * (1 / 2)
      linarith
    · show (0 : ℚ) ≤ 0
      linarith
    · show ((W : ℚ) - H) * (1 / 2) + H ≤ (W : ℚ)
      linarith
    · show (H : ℚ) ≤ (H : ℚ)
      linarith
    · show (W : ℚ) - (((W : ℚ) - H) * (1 / 2) + H) = ((W : ℚ) - H) * (1 / 2)
      linarith
    · show (H : ℚ) - H = 0
      linarith
  · have hlt : (W : ℚ) < (H : ℚ) := lt_of_not_ge hle
    rw [hbox, fitCropBox_512 (W : ℚ) (H : ℚ) hH, if_neg hle]
    refine ⟨rfl, rfl, ?_, ?_, ?_, ?_, ?_, ?_, ?_⟩
    · show (W : ℚ) - 0 = ((H : ℚ) - W) * (1 / 2) + W - ((H : ℚ) - W) * (1 / 2)
      linarith
    · show (0 : ℚ) ≤ 0
      linarith
    · show (0 : ℚ) ≤ ((H : ℚ) - W) * (1 / 2)
      linarith
    · show (W : ℚ) ≤ (W : ℚ)
      linarith
    · show ((H : ℚ) - W) * (1 / 2) + W ≤ (H : ℚ)
      linarith
    · show (W : ℚ) - W = 0
      linarith
    · show (H : ℚ) - (((H : ℚ) - W) * (1 / 2) + W) = ((H : ℚ) - W) * (1 / 2)
      linarith

theorem claim4_resize_512_witness :
    0 < (⟨800, 600⟩ : Raster).width ∧ 0 < (⟨800, 600⟩ : Raster).height ∧
    ((resize_image ⟨800, 600⟩).width = 512 ∧
      (resize_image ⟨800, 600⟩).height = 512 ∧
      (resize_image ⟨800, 600⟩).box.right - (resize_image ⟨800, 600⟩).box.left =
        (resize_image ⟨800, 600⟩).box.bottom - (resize_image ⟨800, 600⟩).box.top ∧
      0 ≤ (resize_image ⟨800, 600⟩).box.left ∧
      0 ≤ (resize_image ⟨800, 600⟩).box.top ∧
      (resize_image ⟨800, 600⟩).box.right ≤ ((⟨800, 600⟩ : Raster).width : ℚ) ∧
      (resize_image ⟨800, 600⟩).box.bottom ≤ ((⟨800, 600⟩ : Raster).height : ℚ) ∧
      ((⟨800, 600⟩ : Raster).width : ℚ) - (resize_image ⟨800, 600⟩).box.right =
        (resize_image ⟨800, 600⟩).box.left ∧
      ((⟨800, 600⟩ : Raster).height : ℚ) - (resize_image ⟨800, 600⟩).box.bottom =
        (resize_image ⟨800, 600⟩).box.top) :=
  ⟨by decide, by decide, claim4_resize_512 ⟨800, 600⟩ (by decide) (by decide)⟩
